import Mathlib

/-!
Verification development for the pdf-ext backend (src/main.py, src/s3_utils.py).
The data model, the save-crop persistence step, the two read endpoints, the
object-storage key derivation and the PDF upload path handling are embedded
shallowly as executable Lean definitions, translated from the Python source.
-/

namespace PdfExt

/-- Fixed category whitelist used by save_crop and get_images_by_category. -/
def valid_categories : List String := ["equations", "diagrams", "tables", "others"]

/-- Model of the JSON `image_urls` column: an insertion-ordered dictionary from
category name to an ordered list of URL strings, as an association list.
The empty list models an empty (or NULL, hence falsy) JSON dict. -/
abbrev ImageUrls := List (String × List String)

/-- Python `d.get(k)`: the value of the binding of `k`, if present. -/
def dictGet (d : ImageUrls) (k : String) : Option (List String) :=
  (d.find? (fun p => p.1 == k)).map Prod.snd

/-- Python `d[k] = v` on a dict: replace the binding in place if `k` is
present, otherwise add it at the end (dict insertion order). -/
def dictSet (d : ImageUrls) (k : String) (v : List String) : ImageUrls :=
  match d with
  | [] => [(k, v)]
  | p :: rest => if p.1 == k then (k, v) :: rest else p :: dictSet rest k v

/-- Python `if category not in d: d[category] = []` from save_crop. -/
def ensureKey (d : ImageUrls) (k : String) : ImageUrls :=
  if (dictGet d k).isSome then d else dictSet d k []

/-- Python `d[k].append(v)`: read the current list of `k` and store it
extended with `v` at the end. -/
def dictAppend (d : ImageUrls) (k v : String) : ImageUrls :=
  dictSet d k (((dictGet d k).getD []) ++ [v])

/-- get_default_image_urls_structure from main.py: the four fixed category
keys, each mapped to an empty list. -/
def get_default_image_urls_structure : ImageUrls :=
  [("tables", []), ("equations", []), ("diagrams", []), ("others", [])]

/-- One row of the pdf_crop_images1 table. Timestamps are abstract ticks. -/
structure PDFCropImages where
  class_id : Int
  subject_id : Int
  course_id : Int
  module_id : Int
  image_urls : ImageUrls
  created_at : Nat
  updated_at : Nat
deriving DecidableEq

/-- WHERE clause shared by save_crop, get_images and get_images_by_category:
equality on the four taxonomy ids. -/
def rowMatches (cid sid coid mid : Int) (r : PDFCropImages) : Bool :=
  r.class_id == cid && r.subject_id == sid && r.course_id == coid && r.module_id == mid

/-- Database table state: rows in insertion order; `.first()` is `List.find?`. -/
abbrev DB := List PDFCropImages

/-- ORM in-place update of the first row satisfying the filter. -/
def updateFirst (db : DB) (p : PDFCropImages → Bool) (f : PDFCropImages → PDFCropImages) : DB :=
  match db with
  | [] => []
  | r :: rs => if p r then f r :: rs else r :: updateFirst rs p f

/-- Form fields of one save_crop request (the file is represented by its
size, which is all the handler inspects before reading the bytes). -/
structure SaveCropRequest where
  fileSize : Nat
  page : Int
  category : String
  pdf_name : String
  class_id : Int
  subject_id : Int
  course_id : Int
  module_id : Int
  folder : String
deriving DecidableEq

/-- Filter of save_crop specialised to the taxonomy ids of the request. -/
def rowMatchesReq (req : SaveCropRequest) : PDFCropImages → Bool :=
  rowMatches req.class_id req.subject_id req.course_id req.module_id

/-- Mutation save_crop applies to the found row (main.py lines 194-223): the
current image_urls is re-read (falling back to the default structure when
falsy), the category key is ensured, the URL is appended to the list of that
category, and updated_at is refreshed. -/
def save_crop_update (req : SaveCropRequest) (s3_url : String) (now : Nat)
    (r : PDFCropImages) : PDFCropImages :=
  let current_image_urls :=
    if r.image_urls = [] then get_default_image_urls_structure else r.image_urls
  let updated_image_urls := ensureKey current_image_urls req.category
  { r with
    image_urls := dictAppend updated_image_urls req.category s3_url
    updated_at := now }

/-- Row save_crop inserts when no match exists (main.py lines 225-239): the
default four-category structure with the URL appended under the category. -/
def save_crop_new_row (req : SaveCropRequest) (s3_url : String) (now : Nat) : PDFCropImages :=
  { class_id := req.class_id, subject_id := req.subject_id,
    course_id := req.course_id, module_id := req.module_id,
    image_urls := dictAppend get_default_image_urls_structure req.category s3_url,
    created_at := now, updated_at := now }

/-- Transactional read-modify-write / insert portion of save_crop
(main.py lines 187-244), given the S3 URL already obtained and the
current clock value `now`. -/
def save_crop_db_step (req : SaveCropRequest) (s3_url : String) (now : Nat) (db : DB) : DB :=
  match db.find? (rowMatchesReq req) with
  | some _ => updateFirst db (rowMatchesReq req) (save_crop_update req s3_url now)
  | none => db ++ [save_crop_new_row req s3_url now]

/-- Iterated successful persistence steps for the same request, one per URL,
in call order. -/
def appendN (req : SaveCropRequest) (now : Nat) (urls : List String) (db : DB) : DB :=
  urls.foldl (fun d u => save_crop_db_step req u now d) db

/-- Response shape of GET /get-images/: when no row exists the handler
returns only the bare default dict; when a row exists it returns the dict
together with created_at, updated_at and total_images. -/
inductive GetImagesResponse where
  | bare (image_urls : ImageUrls)
  | full (image_urls : ImageUrls) (created_at : Nat) (updated_at : Nat) (total_images : Nat)
deriving DecidableEq

/-- get_images from main.py (lines 282-304). -/
def get_images (db : DB) (cid sid coid mid : Int) : GetImagesResponse :=
  match db.find? (rowMatches cid sid coid mid) with
  | none => .bare get_default_image_urls_structure
  | some record =>
      let image_urls :=
        if record.image_urls = [] then get_default_image_urls_structure
        else record.image_urls
      .full image_urls record.created_at record.updated_at
        ((image_urls.map (fun p => p.2.length)).sum)

/-- Observer: the total_images field of a /get-images/ response, when the
response carries one. -/
def totalImagesField : GetImagesResponse → Option Nat
  | .bare _ => none
  | .full _ _ _ t => some t

/-- Response shape of GET /get-images-by-category/: 422 on an invalid
category; `\x7bcategory: []\x7d` without a count field when no row exists or
image_urls is falsy; otherwise the list of the category plus its count. -/
inductive GetByCategoryResponse where
  | error422
  | noCount (category : String) (urls : List String)
  | withCount (category : String) (urls : List String) (count : Nat)
deriving DecidableEq

/-- get_images_by_category from main.py (lines 313-346). -/
def get_images_by_category (db : DB) (cid sid coid mid : Int) (category : String) :
    GetByCategoryResponse :=
  if category ∈ valid_categories then
    match db.find? (rowMatches cid sid coid mid) with
    | none => .noCount category []
    | some record =>
        if record.image_urls = [] then .noCount category []
        else
          .withCount category ((dictGet record.image_urls category).getD [])
            ((dictGet record.image_urls category).getD []).length
  else .error422

/-- Observer: the count field of a /get-images-by-category/ response, when
the response carries one. -/
def countField : GetByCategoryResponse → Option Nat
  | .error422 => none
  | .noCount _ _ => none
  | .withCount _ _ c => some c

/-- Observer: the URL list of a /get-images-by-category/ response. -/
def urlsField : GetByCategoryResponse → Option (List String)
  | .error422 => none
  | .noCount _ u => some u
  | .withCount _ u _ => some u

/-- Extension derivation of upload_to_s3 (s3_utils.py line 19), with the two
stdlib guesses as external parameters: `guess_type` is the first component
of mimetypes.guess_type and `guess_extension` is mimetypes.guess_extension
on a determined type string. When the MIME type cannot be determined,
guess_type yields None and guess_extension(None) raises AttributeError (the
except clause of s3_utils catches only transport errors), so the derivation
fails (`none`) without ever reaching the fallback; when the type is
determined but maps to no known extension, the falsy result falls back to
".webp" through the `or` expression. -/
def file_extension (guess_type guess_extension : String → Option String)
    (original_filename : String) : Option String :=
  match guess_type original_filename with
  | none => none
  | some t => some ((guess_extension t).getD ".webp")

/-- Key generation of upload_to_s3 (s3_utils.py line 20): second-granularity
timestamp `now` is int(time.time()); fails when the extension derivation
raises. -/
def new_file_name (guess_type guess_extension : String → Option String) (now : Nat)
    (original_filename : String) : Option String :=
  (file_extension guess_type guess_extension original_filename).map
    (fun ext => "file_" ++ toString now ++ ext)

/-- Result of upload_to_s3: the public URL and the stored object key. -/
structure S3UploadResult where
  location : String
  key : String
deriving DecidableEq

/-- upload_to_s3 from s3_utils.py (lines 10-31): derives the key from the
timestamp and the guessed extension, and builds the public URL from the
bucket name and the key; `none` models the uncaught AttributeError raised
when the MIME type of the suggested name cannot be determined (no key is
generated and nothing is uploaded in that case). -/
def upload_to_s3 (guess_type guess_extension : String → Option String) (now : Nat)
    (original_filename bucket_name : String) : Option S3UploadResult :=
  (new_file_name guess_type guess_extension now original_filename).map (fun key =>
    { location := "https://" ++ bucket_name ++ ".s3.amazonaws.com/" ++ key, key := key })

/-- Suggested object name passed by save_crop to upload_to_s3 (main.py
line 175); the strftime timestamp is abstracted to the clock value. -/
def crop_original_filename (folder category : String) (now : Nat) : String :=
  folder ++ "/crop_" ++ category ++ "_" ++ toString now ++ ".png"

/-- Python str.endswith over the character data (kernel-reducible). -/
def endswith (s suffix : String) : Bool := suffix.data.isSuffixOf s.data

/-- Python str.startswith over the character data (kernel-reducible). -/
def startswith (s pre : String) : Bool := pre.data.isPrefixOf s.data

/-- Response and side effects of one save_crop request: HTTP outcome, number
of storage-adapter invocations, database state after the request, and the
set of stored object keys (in upload order). -/
inductive SaveCropResponse where
  | success (s3_url : String)
  | error (status : Nat)
deriving DecidableEq

/-- Environment of one save_crop request: whether the S3 transport and the
database transaction succeed, the clock, and the two stdlib MIME guesses. -/
structure Env where
  s3Ok : Bool
  dbOk : Bool
  now : Nat
  guess_type : String → Option String
  guess_extension : String → Option String

structure SaveCropOutcome where
  response : SaveCropResponse
  s3Invocations : Nat
  db : DB
  s3Objects : List String
deriving DecidableEq

/-- save_crop endpoint (main.py lines 141-279): category, empty-file and
pdf-name validation in source order, then the S3 upload, then the
transactional DB step. Inside the upload call the extension derivation runs
before the transport: an AttributeError from an undetermined MIME type
propagates out of upload_to_s3 (no object stored) and the generic exception
handler of save_crop maps it, like a transport failure, to a 500 error. A
DB failure rolls the transaction back (database unchanged) while the
uploaded object stays in storage. -/
def save_crop (env : Env) (bucket : String) (req : SaveCropRequest)
    (db : DB) (s3Objects : List String) : SaveCropOutcome :=
  if req.category ∈ valid_categories then
    if req.fileSize = 0 then
      { response := .error 422, s3Invocations := 0, db := db, s3Objects := s3Objects }
    else if endswith req.pdf_name ".pdf" then
      match upload_to_s3 env.guess_type env.guess_extension env.now
          (crop_original_filename req.folder req.category env.now) bucket with
      | none =>
          { response := .error 500, s3Invocations := 1, db := db, s3Objects := s3Objects }
      | some up =>
        if env.s3Ok then
          let s3Objects' := s3Objects ++ [up.key]
          if env.dbOk then
            { response := .success up.location, s3Invocations := 1,
              db := save_crop_db_step req up.location env.now db, s3Objects := s3Objects' }
          else
            { response := .error 500, s3Invocations := 1, db := db, s3Objects := s3Objects' }
        else
          { response := .error 500, s3Invocations := 1, db := db, s3Objects := s3Objects }
    else
      { response := .error 422, s3Invocations := 0, db := db, s3Objects := s3Objects }
  else
    { response := .error 422, s3Invocations := 0, db := db, s3Objects := s3Objects }

/-- Upload directory of main.py. -/
def UPLOAD_DIR : String := "uploaded-pdfs"

/-- os.path.join for the POSIX paths used here: an absolute second component
replaces the first, otherwise the parts are joined with a single slash. -/
def path_join (a b : String) : String :=
  if startswith b "/" then b
  else if a = "" ∨ endswith a "/" then a ++ b
  else a ++ "/" ++ b

/-- upload_pdf (main.py lines 112-120): accepts any client filename ending in
".pdf" and writes to the unsanitised join with UPLOAD_DIR; `none` models the
422 rejection, `some p` the accepted write at path `p`. -/
def upload_pdf (filename : String) : Option String :=
  if endswith filename ".pdf" then some (path_join UPLOAD_DIR filename) else none

/-- Path opened by the page-serving routes get_page and get_total_pages
(main.py lines 124 and 133): the same unsanitised join of pdf_name. -/
def page_pdf_path (pdf_name : String) : String := path_join UPLOAD_DIR pdf_name

/-- Splitting a character list at every slash, for path analysis. -/
def splitSlash : List Char → List String
  | [] => [""]
  | c :: cs =>
    let rest := splitSlash cs
    if c = '/' then "" :: rest
    else
      match rest with
      | [] => [String.mk [c]]
      | s :: ss => String.mk (c :: s.data) :: ss

/-- Components of a POSIX path. -/
def pathComponents (p : String) : List String := splitSlash p.data

/-- One step of lexical dot-dot resolution; the accumulator is the reversed
list of kept components. -/
def normStep (acc : List String) (c : String) : List String :=
  if c = "" ∨ c = "." then acc
  else if c = ".." then
    match acc with
    | [] => [".."]
    | a :: rest => if a = ".." then c :: a :: rest else rest
  else c :: acc

/-- Lexically normalised components of a relative POSIX path: dot and empty
components dropped, dot-dot cancelling the preceding component when one
exists. A leading ".." in the result means the path escapes the directory
the relative path is rooted at. -/
def normalize (p : String) : List String :=
  ((pathComponents p).foldl normStep []).reverse

/-- Placeholder row used as the default argument of List.getD in statements
about rows at a fixed index. -/
def dummyRow : PDFCropImages :=
  { class_id := 0, subject_id := 0, course_id := 0, module_id := 0,
    image_urls := [], created_at := 0, updated_at := 0 }

/-!
Helper lemmas about the dictionary operations, the filtered update and the
persistence step.
-/

theorem dictGet_cons (p : String × List String) (rest : ImageUrls) (k : String) :
    dictGet (p :: rest) k = if p.1 == k then some p.2 else dictGet rest k := by
  by_cases h : (p.1 == k) = true
  · simp [dictGet, List.find?_cons_of_pos _ h, h]
  · simp [dictGet, List.find?_cons_of_neg _ h, h]

theorem dictGet_dictSet_self (d : ImageUrls) (k : String) (v : List String) :
    dictGet (dictSet d k v) k = some v := by
  induction d with
  | nil => simp [dictSet, dictGet_cons]
  | cons p rest ih =>
    by_cases hp : (p.1 == k) = true
    · simp [dictSet, hp, dictGet_cons]
    · simp [dictSet, hp, dictGet_cons, ih]

theorem dictGet_dictSet_ne (d : ImageUrls) (k k' : String) (v : List String)
    (h : k' ≠ k) : dictGet (dictSet d k v) k' = dictGet d k' := by
  have hkk' : (k == k') = false := beq_eq_false_iff_ne.2 (fun hh => h hh.symm)
  induction d with
  | nil => simp [dictSet, dictGet_cons, hkk']
  | cons p rest ih =>
    by_cases hp : (p.1 == k) = true
    · have hpk : p.1 = k := by simpa using hp
      simp [dictSet, hp, dictGet_cons, hkk', hpk]
    · simp [dictSet, hp, dictGet_cons, ih]

theorem dictSet_ne_nil (d : ImageUrls) (k : String) (v : List String) :
    dictSet d k v ≠ [] := by
  cases d with
  | nil => simp [dictSet]
  | cons p rest =>
    by_cases h : p.1 = k <;> simp [dictSet, h]

theorem dictGet_ensureKey_self (d : ImageUrls) (k : String) :
    dictGet (ensureKey d k) k = some ((dictGet d k).getD []) := by
  unfold ensureKey
  cases h : dictGet d k with
  | none => simp [h, dictGet_dictSet_self]
  | some l => simp [h]

theorem dictGet_ensureKey_ne (d : ImageUrls) (k k' : String) (h : k' ≠ k) :
    dictGet (ensureKey d k) k' = dictGet d k' := by
  unfold ensureKey
  split
  · rfl
  · exact dictGet_dictSet_ne d k k' [] h

theorem dictGet_dictAppend_self (d : ImageUrls) (k v : String) :
    dictGet (dictAppend d k v) k = some (((dictGet d k).getD []) ++ [v]) :=
  dictGet_dictSet_self d k _

theorem dictGet_dictAppend_ne (d : ImageUrls) (k k' v : String) (h : k' ≠ k) :
    dictGet (dictAppend d k v) k' = dictGet d k' :=
  dictGet_dictSet_ne d k k' _ h

theorem dictAppend_ne_nil (d : ImageUrls) (k v : String) :
    dictAppend d k v ≠ [] :=
  dictSet_ne_nil d k _

theorem mem_dictSet (d : ImageUrls) (k : String) (v : List String)
    (q : String × List String) (h : q ∈ dictSet d k v) : q.1 = k ∨ q ∈ d := by
  induction d with
  | nil =>
    simp [dictSet] at h
    simp [h]
  | cons p rest ih =>
    by_cases hp : p.1 = k
    · simp only [dictSet, show (p.1 == k) = true by simpa using hp, if_true] at h
      rcases List.mem_cons.1 h with h1 | h1
      · exact Or.inl (by simp [h1])
      · exact Or.inr (List.mem_cons_of_mem _ h1)
    · simp only [dictSet, show (p.1 == k) = false by simpa using hp,
        Bool.false_eq_true, if_false] at h
      rcases List.mem_cons.1 h with h1 | h1
      · exact Or.inr (by simp [h1])
      · rcases ih h1 with h2 | h2
        · exact Or.inl h2
        · exact Or.inr (List.mem_cons_of_mem _ h2)

theorem mem_ensureKey (d : ImageUrls) (k : String) (q : String × List String)
    (h : q ∈ ensureKey d k) : q.1 = k ∨ q ∈ d := by
  unfold ensureKey at h
  split at h
  · exact Or.inr h
  · exact mem_dictSet d k [] q h

theorem mem_dictAppend (d : ImageUrls) (k v : String) (q : String × List String)
    (h : q ∈ dictAppend d k v) : q.1 = k ∨ q ∈ d :=
  mem_dictSet d k _ q h

theorem mem_default_keys (q : String × List String)
    (h : q ∈ get_default_image_urls_structure) : q.1 ∈ valid_categories := by
  simp [get_default_image_urls_structure] at h
  rcases h with h | h | h | h <;> simp [h, valid_categories]

theorem length_updateFirst (db : DB) (p : PDFCropImages → Bool)
    (f : PDFCropImages → PDFCropImages) : (updateFirst db p f).length = db.length := by
  induction db with
  | nil => rfl
  | cons r rs ih =>
    by_cases h : p r = true <;> simp [updateFirst, h, ih]

theorem find?_updateFirst (db : DB) (p : PDFCropImages → Bool)
    (f : PDFCropImages → PDFCropImages) (hf : ∀ r, p r = true → p (f r) = true) :
    (updateFirst db p f).find? p = (db.find? p).map f := by
  induction db with
  | nil => simp [updateFirst]
  | cons r rs ih =>
    by_cases h : p r = true
    · simp [updateFirst, h, List.find?_cons_of_pos _ (hf r h), List.find?_cons_of_pos _ h]
    · have h' : ¬ p r = true := h
      simp [updateFirst, h, List.find?_cons_of_neg _ h', ih]

theorem mem_updateFirst (db : DB) (p : PDFCropImages → Bool)
    (f : PDFCropImages → PDFCropImages) (r' : PDFCropImages)
    (h : r' ∈ updateFirst db p f) : r' ∈ db ∨ ∃ r, r ∈ db ∧ r' = f r := by
  induction db with
  | nil => simp [updateFirst] at h
  | cons r rs ih =>
    by_cases hp : p r = true
    · simp only [updateFirst, hp, if_true] at h
      rcases List.mem_cons.1 h with h1 | h1
      · exact Or.inr ⟨r, List.mem_cons_self r rs, h1⟩
      · exact Or.inl (List.mem_cons_of_mem _ h1)
    · simp only [updateFirst, hp, if_false] at h
      rcases List.mem_cons.1 h with h1 | h1
      · exact Or.inl (by simp [h1])
      · rcases ih h1 with h2 | ⟨r0, hr0, he⟩
        · exact Or.inl (List.mem_cons_of_mem _ h2)
        · exact Or.inr ⟨r0, List.mem_cons_of_mem _ hr0, he⟩

theorem getD_updateFirst (db : DB) (p : PDFCropImages → Bool)
    (f : PDFCropImages → PDFCropImages) (i : Nat) (d : PDFCropImages) :
    (updateFirst db p f).getD i d = db.getD i d ∨
    (updateFirst db p f).getD i d = f (db.getD i d) := by
  induction db generalizing i with
  | nil => exact Or.inl rfl
  | cons r rs ih =>
    by_cases hp : p r = true
    · cases i with
      | zero => simp [updateFirst, hp]
      | succ n => simp [updateFirst, hp]
    · cases i with
      | zero => simp [updateFirst, hp]
      | succ n =>
        simpa [updateFirst, hp] using ih n

theorem rowMatchesReq_update (req : SaveCropRequest) (url : String) (now : Nat)
    (r : PDFCropImages) :
    rowMatchesReq req (save_crop_update req url now r) = rowMatchesReq req r := rfl

theorem rowMatchesReq_new_row (req : SaveCropRequest) (url : String) (now : Nat) :
    rowMatchesReq req (save_crop_new_row req url now) = true := by
  simp [rowMatchesReq, rowMatches, save_crop_new_row]

theorem save_crop_update_image_urls (req : SaveCropRequest) (url : String) (now : Nat)
    (r : PDFCropImages) (l : List String) (hne : r.image_urls ≠ [])
    (h : dictGet r.image_urls req.category = some l) :
    dictGet (save_crop_update req url now r).image_urls req.category = some (l ++ [url]) ∧
    (save_crop_update req url now r).image_urls ≠ [] := by
  constructor
  · show dictGet (dictAppend (ensureKey (if r.image_urls = [] then
      get_default_image_urls_structure else r.image_urls) req.category) req.category url)
        req.category = some (l ++ [url])
    rw [if_neg hne, dictGet_dictAppend_self, dictGet_ensureKey_self]
    simp [h]
  · exact dictAppend_ne_nil _ _ _

theorem find?_save_crop_db_step_found (req : SaveCropRequest) (url : String) (now : Nat)
    (db : DB) (r : PDFCropImages) (h : db.find? (rowMatchesReq req) = some r) :
    (save_crop_db_step req url now db).find? (rowMatchesReq req)
      = some (save_crop_update req url now r) := by
  unfold save_crop_db_step
  rw [h]
  rw [find?_updateFirst db _ _ (fun r0 h0 => by rw [rowMatchesReq_update]; exact h0), h]
  rfl

theorem find?_save_crop_db_step_none (req : SaveCropRequest) (url : String) (now : Nat)
    (db : DB) (h : db.find? (rowMatchesReq req) = none) :
    (save_crop_db_step req url now db).find? (rowMatchesReq req)
      = some (save_crop_new_row req url now) := by
  unfold save_crop_db_step
  rw [h, List.find?_append, h]
  simp [List.find?_cons_of_pos _ (rowMatchesReq_new_row req url now)]

theorem appendN_cons (req : SaveCropRequest) (now : Nat) (u : String) (us : List String)
    (db : DB) :
    appendN req now (u :: us) db = appendN req now us (save_crop_db_step req u now db) := by
  simp [appendN]

theorem appendN_found (req : SaveCropRequest) (now : Nat) (us : List String) :
    ∀ (db : DB) (r : PDFCropImages) (l : List String),
      db.find? (rowMatchesReq req) = some r →
      r.image_urls ≠ [] →
      dictGet r.image_urls req.category = some l →
      ∃ r', (appendN req now us db).find? (rowMatchesReq req) = some r' ∧
        r'.image_urls ≠ [] ∧
        dictGet r'.image_urls req.category = some (l ++ us) := by
  induction us with
  | nil =>
    intro db r l h hne hg
    exact ⟨r, by simpa [appendN] using h, hne, by simpa using hg⟩
  | cons u us ih =>
    intro db r l h hne hg
    have h1 := find?_save_crop_db_step_found req u now db r h
    have h2 := save_crop_update_image_urls req u now r l hne hg
    have h3 := ih (save_crop_db_step req u now db) _ (l ++ [u]) h1 h2.2 h2.1
    rw [appendN_cons]
    simpa [List.append_assoc] using h3

theorem dictGet_default_of_valid (k : String) (hc : k ∈ valid_categories) :
    dictGet get_default_image_urls_structure k = some [] := by
  simp [valid_categories] at hc
  rcases hc with rfl | rfl | rfl | rfl <;> decide

theorem save_crop_update_keys (req : SaveCropRequest) (url : String) (now : Nat)
    (r : PDFCropImages) (hc : req.category ∈ valid_categories)
    (hr : ∀ q ∈ r.image_urls, q.1 ∈ valid_categories) :
    ∀ q ∈ (save_crop_update req url now r).image_urls, q.1 ∈ valid_categories := by
  intro q hq
  have hq' : q ∈ dictAppend (ensureKey (if r.image_urls = [] then
      get_default_image_urls_structure else r.image_urls) req.category) req.category url := hq
  rcases mem_dictAppend _ _ _ q hq' with h1 | h1
  · exact h1 ▸ hc
  · rcases mem_ensureKey _ _ q h1 with h2 | h2
    · exact h2 ▸ hc
    · by_cases hne : r.image_urls = []
      · rw [if_pos hne] at h2; exact mem_default_keys q h2
      · rw [if_neg hne] at h2; exact hr q h2

theorem save_crop_update_prefix (req : SaveCropRequest) (url : String) (now : Nat)
    (r : PDFCropImages) (k : String) :
    List.IsPrefix ((dictGet r.image_urls k).getD [])
      ((dictGet (save_crop_update req url now r).image_urls k).getD []) := by
  have himg : (save_crop_update req url now r).image_urls
      = dictAppend (ensureKey (if r.image_urls = [] then
          get_default_image_urls_structure else r.image_urls) req.category) req.category url := rfl
  by_cases hne : r.image_urls = []
  · have hnil : (dictGet r.image_urls k).getD [] = [] := by rw [hne]; rfl
    rw [hnil]
    exact List.nil_prefix
  · rw [himg, if_neg hne]
    by_cases hk : k = req.category
    · subst hk
      rw [dictGet_dictAppend_self, dictGet_ensureKey_self]
      simp only [Option.getD_some]
      exact List.prefix_append _ _
    · rw [dictGet_dictAppend_ne _ _ _ _ hk, dictGet_ensureKey_ne _ _ _ hk]

theorem get_images_by_category_eq_none (db : DB) (cid sid coid mid : Int) (cat : String)
    (hc : cat ∈ valid_categories) (h : db.find? (rowMatches cid sid coid mid) = none) :
    get_images_by_category db cid sid coid mid cat = .noCount cat [] := by
  unfold get_images_by_category
  rw [if_pos hc, h]

theorem get_images_by_category_eq_some (db : DB) (cid sid coid mid : Int) (cat : String)
    (r : PDFCropImages) (hc : cat ∈ valid_categories)
    (h : db.find? (rowMatches cid sid coid mid) = some r) (hne : r.image_urls ≠ []) :
    get_images_by_category db cid sid coid mid cat
      = .withCount cat ((dictGet r.image_urls cat).getD [])
          ((dictGet r.image_urls cat).getD []).length := by
  unfold get_images_by_category
  rw [if_pos hc, h]
  show (if r.image_urls = [] then GetByCategoryResponse.noCount cat []
      else GetByCategoryResponse.withCount cat ((dictGet r.image_urls cat).getD [])
        ((dictGet r.image_urls cat).getD []).length) = _
  rw [if_neg hne]

/-!
Claim theorems, with their witnesses and counterexamples.
-/

/-- C1 counterexample: the claim quantifies over every sequence of N
successful appends, including the empty one; after zero appends for a
never-seen tuple, get_images_by_category does not return count = 0 (the
count field is omitted in the no-row branch of main.py line 335). -/
theorem zero_appends_category_count_missing :
    countField (get_images_by_category
        (appendN ⟨1, 0, "others", "a.pdf", 1, 2, 3, 4, "f"⟩ 7 [] [])
        1 2 3 4 "others") ≠ some 0 := by decide

/-- C1 (amended): for every valid category, every taxonomy tuple with no
existing row, and every sequence of N greater or equal 1 successful appends
of url_1 .. url_N, a subsequent get_images_by_category returns count = N and
the list of URLs in exactly append order. -/
theorem getCategory_counts_appends_in_order (req : SaveCropRequest) (now : Nat) (db : DB)
    (u : String) (us : List String)
    (hc : req.category ∈ valid_categories)
    (hfresh : db.find? (rowMatchesReq req) = none) :
    get_images_by_category (appendN req now (u :: us) db)
        req.class_id req.subject_id req.course_id req.module_id req.category
      = .withCount req.category (u :: us) (u :: us).length := by
  have h1 := find?_save_crop_db_step_none req u now db hfresh
  have h2 : dictGet (save_crop_new_row req u now).image_urls req.category = some [u] := by
    show dictGet (dictAppend get_default_image_urls_structure req.category u) req.category
      = some [u]
    rw [dictGet_dictAppend_self, dictGet_default_of_valid _ hc]
    rfl
  have h3 : (save_crop_new_row req u now).image_urls ≠ [] := dictAppend_ne_nil _ _ _
  obtain ⟨r', hfind, hne, hget⟩ :=
    appendN_found req now us (save_crop_db_step req u now db) _ [u] h1 h3 h2
  rw [appendN_cons]
  have hfind' : (appendN req now us (save_crop_db_step req u now db)).find?
      (rowMatches req.class_id req.subject_id req.course_id req.module_id) = some r' := hfind
  rw [get_images_by_category_eq_some _ _ _ _ _ _ r' hc hfind' hne, hget]
  rfl

/-- C1 witness: two appends for a fresh tuple yield count 2 and the URLs in
call order. -/
theorem getCategory_counts_appends_in_order_witness :
    get_images_by_category
        (appendN ⟨1, 0, "tables", "a.pdf", 1, 2, 3, 4, "f"⟩ 7 ["u1", "u2"] [])
        1 2 3 4 "tables"
      = .withCount "tables" ["u1", "u2"] 2 := by
  have := getCategory_counts_appends_in_order ⟨1, 0, "tables", "a.pdf", 1, 2, 3, 4, "f"⟩ 7 []
    "u1" ["u2"] (by decide) rfl
  simpa using this

/-- C2: the persistence step of save_crop. When a row matching the taxonomy
tuple is found, the database becomes the in-place update of that row, whose
image_urls re-reads the current value (defaulting when falsy), has the
category key present with the URL appended at the end, leaves every other
key unchanged, and refreshes updated_at while keeping created_at. When no
row is found, the database is extended by exactly one new row whose
image_urls is the four-category default structure with the URL appended
under the given category, carrying the request ids and fresh timestamps.
The flush, commit and explicit dirty-marking of the JSON column are modelled
by the state transition taking effect. -/
theorem save_crop_persistence_found_or_insert (req : SaveCropRequest) (url : String)
    (now : Nat) (db : DB) :
    (∀ r, db.find? (rowMatchesReq req) = some r →
      (save_crop_db_step req url now db
          = updateFirst db (rowMatchesReq req) (save_crop_update req url now) ∧
       dictGet (save_crop_update req url now r).image_urls req.category
          = some (((dictGet (if r.image_urls = [] then get_default_image_urls_structure
              else r.image_urls) req.category).getD []) ++ [url]) ∧
       (∀ k, k ≠ req.category →
          dictGet (save_crop_update req url now r).image_urls k
            = dictGet (if r.image_urls = [] then get_default_image_urls_structure
                else r.image_urls) k) ∧
       (save_crop_update req url now r).updated_at = now ∧
       (save_crop_update req url now r).created_at = r.created_at)) ∧
    (db.find? (rowMatchesReq req) = none →
      (save_crop_db_step req url now db = db ++ [save_crop_new_row req url now] ∧
       dictGet (save_crop_new_row req url now).image_urls req.category
          = some (((dictGet get_default_image_urls_structure req.category).getD []) ++ [url]) ∧
       (∀ k, k ≠ req.category →
          dictGet (save_crop_new_row req url now).image_urls k
            = dictGet get_default_image_urls_structure k) ∧
       (save_crop_new_row req url now).created_at = now ∧
       (save_crop_new_row req url now).updated_at = now)) := by
  constructor
  · intro r h
    have himg : (save_crop_update req url now r).image_urls
        = dictAppend (ensureKey (if r.image_urls = [] then
            get_default_image_urls_structure else r.image_urls) req.category)
            req.category url := rfl
    refine ⟨by unfold save_crop_db_step; rw [h], ?_, ?_, rfl, rfl⟩
    · rw [himg, dictGet_dictAppend_self, dictGet_ensureKey_self]
      simp
    · intro k hk
      rw [himg, dictGet_dictAppend_ne _ _ _ _ hk, dictGet_ensureKey_ne _ _ _ hk]
  · intro h
    have himg : (save_crop_new_row req url now).image_urls
        = dictAppend get_default_image_urls_structure req.category url := rfl
    refine ⟨by unfold save_crop_db_step; rw [h], ?_, ?_, rfl, rfl⟩
    · rw [himg, dictGet_dictAppend_self]
    · intro k hk
      rw [himg, dictGet_dictAppend_ne _ _ _ _ hk]

/-- C2 witness: the found branch at a one-row database and the insert branch
at the empty database. -/
theorem save_crop_persistence_found_or_insert_witness :
    save_crop_db_step ⟨5, 0, "tables", "a.pdf", 1, 2, 3, 4, "f"⟩ "u" 7
        [⟨1, 2, 3, 4, [("tables", ["a"])], 0, 0⟩]
      = updateFirst [⟨1, 2, 3, 4, [("tables", ["a"])], 0, 0⟩]
          (rowMatchesReq ⟨5, 0, "tables", "a.pdf", 1, 2, 3, 4, "f"⟩)
          (save_crop_update ⟨5, 0, "tables", "a.pdf", 1, 2, 3, 4, "f"⟩ "u" 7) ∧
    save_crop_db_step ⟨5, 0, "tables", "a.pdf", 1, 2, 3, 4, "f"⟩ "u" 7 []
      = [] ++ [save_crop_new_row ⟨5, 0, "tables", "a.pdf", 1, 2, 3, 4, "f"⟩ "u" 7] := by
  exact ⟨((save_crop_persistence_found_or_insert ⟨5, 0, "tables", "a.pdf", 1, 2, 3, 4, "f"⟩
      "u" 7 [⟨1, 2, 3, 4, [("tables", ["a"])], 0, 0⟩]).1
      ⟨1, 2, 3, 4, [("tables", ["a"])], 0, 0⟩ (by decide)).1,
    ((save_crop_persistence_found_or_insert ⟨5, 0, "tables", "a.pdf", 1, 2, 3, 4, "f"⟩
      "u" 7 []).2 rfl).1⟩

/-- C3 counterexample: for a never-seen tuple, the /get-images/ response is
the bare default dict and carries no total_images field, so the claim that
it returns total_images = 0 fails (main.py line 294 returns the structure
alone). -/
theorem getAggregate_missing_row_no_total_images :
    totalImagesField (get_images [] 5 6 7 8) ≠ some 0 := by decide

/-- C3 (amended): for every taxonomy tuple with no row, get_images returns
the bare four-category default structure, with all four category keys
present and empty, and never fails; the total_images field (like created_at
and updated_at) is omitted in this case. -/
theorem getAggregate_missing_row_default (db : DB) (cid sid coid mid : Int)
    (h : db.find? (rowMatches cid sid coid mid) = none) :
    get_images db cid sid coid mid = .bare get_default_image_urls_structure ∧
    totalImagesField (get_images db cid sid coid mid) = none ∧
    (∀ k ∈ valid_categories, dictGet get_default_image_urls_structure k = some []) := by
  have hb : get_images db cid sid coid mid = .bare get_default_image_urls_structure := by
    unfold get_images; rw [h]
  exact ⟨hb, by rw [hb]; rfl, fun k hk => dictGet_default_of_valid k hk⟩

/-- C3 witness: the empty database and a concrete tuple. -/
theorem getAggregate_missing_row_default_witness :
    get_images [] 1 2 3 4 = .bare get_default_image_urls_structure ∧
    totalImagesField (get_images [] 1 2 3 4) = none :=
  ⟨(getAggregate_missing_row_default [] 1 2 3 4 rfl).1,
   (getAggregate_missing_row_default [] 1 2 3 4 rfl).2.1⟩

/-- C4 counterexample: when no row exists, get_images_by_category returns
the empty list but omits the count field (main.py line 335), contradicting
the claim that it returns count 0 in that case. -/
theorem getCategory_missing_row_count_missing :
    countField (get_images_by_category [] 9 9 9 9 "diagrams") ≠ some 0 ∧
    urlsField (get_images_by_category [] 9 9 9 9 "diagrams") = some [] := by decide

/-- C4 (amended): get_images_by_category rejects an invalid category with
422; when no row exists (and likewise when image_urls is falsy) it returns
the bare empty list without a count field; when a row with non-falsy
image_urls exists it returns the list of the category (empty when the key
is absent) together with count equal to the length of that list. -/
theorem getCategory_response_shapes (db : DB) (cid sid coid mid : Int) (cat : String) :
    (cat ∉ valid_categories → get_images_by_category db cid sid coid mid cat = .error422) ∧
    (cat ∈ valid_categories → db.find? (rowMatches cid sid coid mid) = none →
      get_images_by_category db cid sid coid mid cat = .noCount cat []) ∧
    (∀ r, cat ∈ valid_categories → db.find? (rowMatches cid sid coid mid) = some r →
      r.image_urls ≠ [] →
      get_images_by_category db cid sid coid mid cat
        = .withCount cat ((dictGet r.image_urls cat).getD [])
            ((dictGet r.image_urls cat).getD []).length) := by
  refine ⟨?_, ?_, ?_⟩
  · intro h; unfold get_images_by_category; rw [if_neg h]
  · intro hc h; exact get_images_by_category_eq_none db cid sid coid mid cat hc h
  · intro r hc h hne; exact get_images_by_category_eq_some db cid sid coid mid cat r hc h hne

/-- C4 witness: the three branches at concrete inputs, including the
scenario where a row saved under tables is queried for others. -/
theorem getCategory_response_shapes_witness :
    get_images_by_category [] 1 2 3 4 "bad" = .error422 ∧
    get_images_by_category [] 1 2 3 4 "tables" = .noCount "tables" [] ∧
    get_images_by_category [⟨1, 2, 3, 4, [("tables", ["u"])], 0, 0⟩] 1 2 3 4 "others"
      = .withCount "others" [] 0 := by
  refine ⟨(getCategory_response_shapes [] 1 2 3 4 "bad").1 (by decide),
    (getCategory_response_shapes [] 1 2 3 4 "tables").2.1 (by decide) rfl, ?_⟩
  have h := (getCategory_response_shapes [⟨1, 2, 3, 4, [("tables", ["u"])], 0, 0⟩] 1 2 3 4
    "others").2.2 ⟨1, 2, 3, 4, [("tables", ["u"])], 0, 0⟩ (by decide) (by decide) (by decide)
  rw [h]; decide

/-- C5: a save-crop request whose category is not in the whitelist fails
with 422 before any storage or database call: the storage adapter observes
zero invocations, no object is stored, and the database is unchanged. -/
theorem save_crop_invalid_category_no_side_effects (env : Env) (bucket : String)
    (req : SaveCropRequest) (db : DB) (s3Objects : List String)
    (h : req.category ∉ valid_categories) :
    save_crop env bucket req db s3Objects
      = { response := .error 422, s3Invocations := 0, db := db, s3Objects := s3Objects } := by
  unfold save_crop
  rw [if_neg h]

/-- C5 witness: a concrete invalid-category request. -/
theorem save_crop_invalid_category_no_side_effects_witness :
    save_crop ⟨true, true, 9, fun _ => some "image/png", fun _ => some ".png"⟩ "bkt"
        ⟨5, 0, "bad", "a.pdf", 1, 2, 3, 4, "f"⟩ [] []
      = { response := .error 422, s3Invocations := 0, db := [], s3Objects := [] } :=
  save_crop_invalid_category_no_side_effects _ _ _ _ _ (by decide)

/-- C6: when the database step fails after a successful upload (the
extension derivation succeeded and the transport delivered the object, so
upload_to_s3 returned a result `up`), save_crop surfaces a 500 error, the
transaction is rolled back (the database is unchanged), and the
already-uploaded object stays in storage as an orphan (it is not
deleted). -/
theorem save_crop_db_failure_rollback_orphan (env : Env) (bucket : String)
    (req : SaveCropRequest) (db : DB) (s3Objects : List String) (up : S3UploadResult)
    (hc : req.category ∈ valid_categories) (hf : req.fileSize ≠ 0)
    (hp : endswith req.pdf_name ".pdf" = true)
    (hu : upload_to_s3 env.guess_type env.guess_extension env.now
        (crop_original_filename req.folder req.category env.now) bucket = some up)
    (hs : env.s3Ok = true) (hd : env.dbOk = false) :
    save_crop env bucket req db s3Objects
      = { response := .error 500, s3Invocations := 1, db := db,
          s3Objects := s3Objects ++ [up.key] } := by
  simp [save_crop, hc, hf, hp, hu, hs, hd]

/-- C6 witness: a concrete request with the storage succeeding and the
database failing. -/
theorem save_crop_db_failure_rollback_orphan_witness :
    save_crop ⟨true, false, 9, fun _ => some "image/png", fun _ => some ".png"⟩ "bkt"
        ⟨5, 0, "tables", "a.pdf", 1, 2, 3, 4, "f"⟩ [] []
      = { response := .error 500, s3Invocations := 1, db := [],
          s3Objects := ["file_9.png"] } := by
  have h := save_crop_db_failure_rollback_orphan
    ⟨true, false, 9, fun _ => some "image/png", fun _ => some ".png"⟩ "bkt"
    ⟨5, 0, "tables", "a.pdf", 1, 2, 3, 4, "f"⟩ [] []
    ⟨"https://bkt.s3.amazonaws.com/file_9.png", "file_9.png"⟩
    (by decide) (by decide) (by decide) (by decide) rfl rfl
  rw [h]; decide

/-- C7: under the serialization the exclusive row lock provides, N
concurrent successful appends to an existing row whose category list is
empty execute in some order (an arbitrary permutation of the URLs); no
update is lost: the category afterwards holds a list of length N returned
with count N, and every one of the N URLs is present. -/
theorem concurrent_appends_no_lost_update (req : SaveCropRequest) (now : Nat) (db : DB)
    (r : PDFCropImages) (urls perm : List String)
    (hc : req.category ∈ valid_categories)
    (hfound : db.find? (rowMatchesReq req) = some r)
    (hne : r.image_urls ≠ [])
    (hcur : dictGet r.image_urls req.category = some [])
    (hperm : perm.Perm urls) :
    urlsField (get_images_by_category (appendN req now perm db)
        req.class_id req.subject_id req.course_id req.module_id req.category) = some perm ∧
    countField (get_images_by_category (appendN req now perm db)
        req.class_id req.subject_id req.course_id req.module_id req.category)
      = some urls.length ∧
    (∀ u ∈ urls, u ∈ perm) := by
  obtain ⟨r', hfind, hne', hget⟩ := appendN_found req now perm db r [] hfound hne hcur
  have hget' : dictGet r'.image_urls req.category = some perm := by simpa using hget
  have hres : get_images_by_category (appendN req now perm db)
      req.class_id req.subject_id req.course_id req.module_id req.category
        = .withCount req.category perm perm.length := by
    have hfind' : (appendN req now perm db).find?
        (rowMatches req.class_id req.subject_id req.course_id req.module_id) = some r' := hfind
    rw [get_images_by_category_eq_some _ _ _ _ _ _ r' hc hfind' hne', hget']
    rfl
  exact ⟨by rw [hres]; rfl, by rw [hres]; simp [countField, hperm.length_eq],
    fun u hu => hperm.mem_iff.2 hu⟩

/-- C7 witness: two appends serialized in reversed order on an existing row
with an empty tables list still produce both URLs and count 2. -/
theorem concurrent_appends_no_lost_update_witness :
    urlsField (get_images_by_category
        (appendN ⟨5, 0, "tables", "a.pdf", 1, 2, 3, 4, "f"⟩ 7 ["b", "a"]
          [⟨1, 2, 3, 4, [("tables", [])], 0, 0⟩]) 1 2 3 4 "tables") = some ["b", "a"] ∧
    countField (get_images_by_category
        (appendN ⟨5, 0, "tables", "a.pdf", 1, 2, 3, 4, "f"⟩ 7 ["b", "a"]
          [⟨1, 2, 3, 4, [("tables", [])], 0, 0⟩]) 1 2 3 4 "tables") = some 2 := by
  have h := concurrent_appends_no_lost_update ⟨5, 0, "tables", "a.pdf", 1, 2, 3, 4, "f"⟩ 7
    [⟨1, 2, 3, 4, [("tables", [])], 0, 0⟩] ⟨1, 2, 3, 4, [("tables", [])], 0, 0⟩
    ["a", "b"] ["b", "a"] (by decide) (by decide) (by decide) (by decide) (by decide)
  exact ⟨h.1, h.2.1⟩

/-- C8: the persistence step preserves the invariant that every category key
present in any image_urls of the table is one of the four fixed names, and
it only extends per-category URL lists: for every pre-existing row position
and every key, the old list is a prefix of the new one (nothing is removed
or reordered; the read endpoints do not modify state in this model). -/
theorem save_crop_invariant_keys_and_append_only (req : SaveCropRequest) (url : String)
    (now : Nat) (db : DB)
    (hc : req.category ∈ valid_categories)
    (hkeys : ∀ r ∈ db, ∀ q ∈ r.image_urls, q.1 ∈ valid_categories) :
    (∀ r ∈ save_crop_db_step req url now db, ∀ q ∈ r.image_urls, q.1 ∈ valid_categories) ∧
    (∀ i, i < db.length → ∀ k : String,
      List.IsPrefix ((dictGet (db.getD i dummyRow).image_urls k).getD [])
        ((dictGet ((save_crop_db_step req url now db).getD i dummyRow).image_urls k).getD [])) := by
  constructor
  · intro r' hr' q hq
    cases hfind : db.find? (rowMatchesReq req) with
    | some r0 =>
      have hstep : save_crop_db_step req url now db
          = updateFirst db (rowMatchesReq req) (save_crop_update req url now) := by
        unfold save_crop_db_step; rw [hfind]
      rw [hstep] at hr'
      rcases mem_updateFirst _ _ _ _ hr' with h1 | ⟨r1, hr1, he⟩
      · exact hkeys r' h1 q hq
      · subst he
        exact save_crop_update_keys req url now r1 hc (hkeys r1 hr1) q hq
    | none =>
      have hstep : save_crop_db_step req url now db
          = db ++ [save_crop_new_row req url now] := by
        unfold save_crop_db_step; rw [hfind]
      rw [hstep] at hr'
      rcases List.mem_append.1 hr' with h1 | h1
      · exact hkeys r' h1 q hq
      · have he : r' = save_crop_new_row req url now := by simpa using h1
        subst he
        have hq' : q ∈ dictAppend get_default_image_urls_structure req.category url := hq
        rcases mem_dictAppend _ _ _ q hq' with h2 | h2
        · exact h2 ▸ hc
        · exact mem_default_keys q h2
  · intro i hi k
    cases hfind : db.find? (rowMatchesReq req) with
    | some r0 =>
      have hstep : save_crop_db_step req url now db
          = updateFirst db (rowMatchesReq req) (save_crop_update req url now) := by
        unfold save_crop_db_step; rw [hfind]
      rw [hstep]
      rcases getD_updateFirst db (rowMatchesReq req) (save_crop_update req url now) i dummyRow
        with h | h
      · rw [h]
      · rw [h]; exact save_crop_update_prefix req url now _ k
    | none =>
      have hstep : save_crop_db_step req url now db
          = db ++ [save_crop_new_row req url now] := by
        unfold save_crop_db_step; rw [hfind]
      rw [hstep, List.getD_append _ _ _ _ hi]

/-- C8 witness: the invariant applied to a one-row database, specialised to
row index 0 and key tables, where the list grows from one URL to two. -/
theorem save_crop_invariant_keys_and_append_only_witness :
    ("tables" : String) ∈ valid_categories ∧ List.IsPrefix ["a"] ["a", "u"] := by
  have h := save_crop_invariant_keys_and_append_only
    ⟨5, 0, "tables", "a.pdf", 1, 2, 3, 4, "f"⟩ "u" 7
    [⟨1, 2, 3, 4, [("tables", ["a"])], 0, 0⟩] (by decide) (by decide)
  exact ⟨h.1 ⟨1, 2, 3, 4, [("tables", ["a", "u"])], 0, 7⟩ (by decide)
      ("tables", ["a", "u"]) (by decide),
    h.2 0 (by decide) "tables"⟩

/-- C9 counterexample: the claim fails twice at concrete inputs. Key
generation is not collision-resistant: two distinct uploads in the same
second with the same guessed extension receive the same key
(int(time.time()) has second granularity, s3_utils.py line 20). And when
the MIME type of the suggested name cannot be determined, the call does not
fall back to a generic image extension: guess_extension(None) raises
AttributeError (uncaught by the except clause of s3_utils.py line 33) and
no key is produced at all. -/
theorem upload_keys_collide_same_second :
    (("crops/a.png" : String) ≠ "crops/b.png" ∧
      upload_to_s3 (fun _ => some "image/png") (fun _ => some ".png") 100 "crops/a.png" "bkt"
        = upload_to_s3 (fun _ => some "image/png") (fun _ => some ".png") 100
            "crops/b.png" "bkt") ∧
    upload_to_s3 (fun _ => none) (fun _ => some ".png") 100 "crops/a.unknown" "bkt" = none :=
  ⟨⟨by decide, rfl⟩, rfl⟩

/-- C9 (amended): when the guessed MIME type of the suggested name is
determined, the stored key has the form file_ timestamp extension, where
the extension is the one mapped from that type, falling back to .webp when
the type maps to no known extension, and the returned URL is
deterministically built from the bucket name and that key; when the type
cannot be determined, the call raises (producing no key and uploading
nothing) instead of falling back. Key generation is not
collision-resistant: uploads sharing a second-granularity timestamp and a
derived extension share a key. -/
theorem upload_key_shape_raise_fallback_url
    (guess_type guess_extension : String → Option String)
    (now : Nat) (name bucket : String) :
    (guess_type name = none →
      upload_to_s3 guess_type guess_extension now name bucket = none) ∧
    (∀ t, guess_type name = some t →
      upload_to_s3 guess_type guess_extension now name bucket
        = some { location := "https://" ++ bucket ++ ".s3.amazonaws.com/"
                   ++ ("file_" ++ toString now ++ ((guess_extension t).getD ".webp")),
                 key := "file_" ++ toString now ++ ((guess_extension t).getD ".webp") }) ∧
    (∀ t, guess_type name = some t → guess_extension t = none →
      file_extension guess_type guess_extension name = some ".webp") := by
  refine ⟨?_, ?_, ?_⟩
  · intro h
    simp [upload_to_s3, new_file_name, file_extension, h]
  · intro t h
    simp [upload_to_s3, new_file_name, file_extension, h]
  · intro t h he
    simp [file_extension, h, he]

/-- C9 witness: an undetermined type produces no key, and a determined type
with no known extension falls back to .webp in the key and the URL. -/
theorem upload_key_shape_raise_fallback_url_witness :
    upload_to_s3 (fun _ => none) (fun _ => some ".png") 100 "x.unknown" "bkt" = none ∧
    upload_to_s3 (fun _ => some "application/x-unknown") (fun _ => none) 100 "x.dat" "bkt"
      = some { location := "https://bkt.s3.amazonaws.com/file_100.webp",
               key := "file_100.webp" } := by
  have h1 := (upload_key_shape_raise_fallback_url (fun _ => none) (fun _ => some ".png")
    100 "x.unknown" "bkt").1 rfl
  have h2 := (upload_key_shape_raise_fallback_url (fun _ => some "application/x-unknown")
    (fun _ => none) 100 "x.dat" "bkt").2.1 "application/x-unknown" rfl
  exact ⟨h1, by rw [h2]; decide⟩

/-- C10: a POST to upload-pdf whose client filename ends in .pdf but
contains parent-directory components is accepted and written to the
unsanitised join, which lexically resolves outside the upload directory
(its normal form starts with a dot-dot component); the page-serving routes
build the same unsanitised path from pdf_name. -/
theorem upload_pdf_path_traversal :
    upload_pdf "../../x.pdf" = some "uploaded-pdfs/../../x.pdf" ∧
    page_pdf_path "../../x.pdf" = "uploaded-pdfs/../../x.pdf" ∧
    normalize "uploaded-pdfs/../../x.pdf" = ["..", "x.pdf"] ∧
    (normalize "uploaded-pdfs/../../x.pdf").head? ≠ some UPLOAD_DIR :=
  ⟨by decide, by decide, by decide, by decide⟩

end PdfExt
